import Mathlib

/-!
Verification development for the procgen-companion variation-expansion engine.

The Python source (procgen_companion/) is shallowly embedded below:
  - tags.py data model  -> the PyObj inductive (one universe of document values,
    mirroring Python's single dynamic object universe),
  - meta.py             -> MetaT (list of labels) and Meta_init,
  - handlers.py         -> count / sample / iterate per node kind, the
    ConditionResolver (matches, resolve, find_variable, find_item),
  - util.py             -> product (cartProduct), COLORS, MutablePlaceholder,
  - core.py             -> generate with its exhaustive / sample modes, the
    deferred placeholder-filling pass and ProcIfLabels resolution.

Python numerics (int / float) are modelled as rationals; Python booleans are a
subtype of int and are likewise subsumed by the numeric constructor.  Randomness
(the process-wide random generator) is modelled as an oracle g : Nat -> Nat
together with a draw counter: the k-th draw of random.choice from a sequence of
length n picks index g k % n.  Exceptions are modelled with Except; laziness is
modelled eagerly (materialised lists), which is observationally equivalent for
the counting / ordering properties proved here.
-/

/-- Python exception, rendered as a message string. -/
abbrev Err := String

/-- meta.Meta: the per-variation record of labels (its only live field). -/
abbrev MetaT := List String

/-- The random oracle: draw number k yields the natural g k. -/
abbrev RNG := Nat → Nat

/-- The AnimalAI mapping tags (tags.py GET_ANIMAL_AI_TAGS): ArenaConfig, Arena,
Item, Vector3, RGB.  All of them are CustomMappingTag + AnimalAITag + WithId. -/
inductive AAITag where
  | arenaConfig
  | arena
  | item
  | vector3
  | rgb
deriving DecidableEq, Repr

/-- One universe of document values, as in Python.  Mappings (plain dicts and
AnimalAI mapping tags) are ordered parallel (keys, values) lists; document keys
are strings.  MutablePlaceholder carries the originating ProcIf node (the
closure in handlers.ProcIf captures it), the stored value (Python None while
unfilled) and the stored label. -/
inductive PyObj where
  | pnone
  | num (q : ℚ)
  | str (s : String)
  | plist (xs : List PyObj)
  | pmap (keys : List String) (vals : List PyObj)
  | aai (t : AAITag) (keys : List String) (vals : List PyObj)
  | range (mn mx : ℚ)
  | procList (options : List PyObj)
  | procListLabelled (options : List (String × PyObj))
  | procColor (amount : Nat)
  | procVector3Scaled (base : Option (ℚ × ℚ × ℚ)) (scales : List ℚ)
      (labels : Option (List String))
  | procRepeatChoice (amount : Nat) (value : PyObj)
  | procRestrictCombinations (amount : Nat) (item : PyObj)
  | procIf (value : PyObj) (cases : List PyObj) (thens : List PyObj)
      (default : PyObj) (labels : Option (List String)) (defaultLabel : Option String)
  | placeholder (pif : PyObj) (stored : PyObj) (storedLabel : Option String)

mutual

/-- Python == on document values: numbers compare numerically, strings and
containers structurally, None equals only None; values of different kinds are
unequal (Python returns False rather than raising on ==).  Tagged objects
(which in CPython would compare by identity) are compared structurally here;
no claim exercises identity comparison of tagged objects. -/
def pyEqB : PyObj → PyObj → Bool
  | .pnone, .pnone => true
  | .num a, .num b => a == b
  | .str a, .str b => a == b
  | .plist xs, .plist ys => pyEqBList xs ys
  | .pmap ka va, .pmap kb vb => ka == kb && pyEqBList va vb
  | .aai ta ka va, .aai tb kb vb => ta == tb && ka == kb && pyEqBList va vb
  | .range a b, .range c d => a == c && b == d
  | .procList a, .procList b => pyEqBList a b
  | .procListLabelled a, .procListLabelled b => pyEqBLab a b
  | .procColor a, .procColor b => a == b
  | .procVector3Scaled ba sa la, .procVector3Scaled bb sb lb =>
      ba == bb && sa == sb && la == lb
  | .procRepeatChoice aa va, .procRepeatChoice ab vb => aa == ab && pyEqB va vb
  | .procRestrictCombinations aa va, .procRestrictCombinations ab vb =>
      aa == ab && pyEqB va vb
  | .procIf v1 c1 t1 d1 l1 dl1, .procIf v2 c2 t2 d2 l2 dl2 =>
      pyEqB v1 v2 && pyEqBList c1 c2 && pyEqBList t1 t2 && pyEqB d1 d2 &&
      l1 == l2 && dl1 == dl2
  | .placeholder p1 s1 l1, .placeholder p2 s2 l2 =>
      pyEqB p1 p2 && pyEqB s1 s2 && l1 == l2
  | _, _ => false

/-- Elementwise equality of value lists (Python list ==). -/
def pyEqBList : List PyObj → List PyObj → Bool
  | [], [] => true
  | x :: xs, y :: ys => pyEqB x y && pyEqBList xs ys
  | _, _ => false

/-- Elementwise equality of labelled-option lists. -/
def pyEqBLab : List (String × PyObj) → List (String × PyObj) → Bool
  | [], [] => true
  | (lx, x) :: xs, (ly, y) :: ys => lx == ly && pyEqB x y && pyEqBLab xs ys
  | _, _ => false

end

/-- meta.Meta construction.  Meta.__init__ takes no parameters beyond self, so
the keyword call Meta(labels=...) made by several handlers raises TypeError;
the plain call Meta() yields an empty label list. -/
def Meta_init : Option (List String) → Except Err MetaT
  | none => .ok []
  | some _ => .error "TypeError: Meta.__init__ got an unexpected keyword argument labels"

/-- meta.Meta.add_label: appends the label when it is not None. -/
def Meta_addLabel (m : MetaT) : Option String → MetaT
  | some l => m ++ [l]
  | none => m

/-- handlers.extract_meta: concatenate the children's labels in order. -/
def extract_meta (children : List (PyObj × MetaT)) : MetaT :=
  (children.map Prod.snd).flatten

/-- handlers.extract_children. -/
def extract_children (children : List (PyObj × MetaT)) : List PyObj :=
  children.map Prod.fst

/-- util.COLORS: the fixed palette of 10 RGB triples. -/
def COLORS : List (ℚ × ℚ × ℚ) :=
  [(255, 0, 0), (0, 255, 0), (0, 0, 255), (255, 255, 0), (255, 0, 255),
   (0, 255, 255), (192, 192, 192), (128, 128, 128), (128, 0, 0), (0, 128, 0)]

/-- handlers.to_rgb: build an RGB tag object from a colour triple. -/
def to_rgb (c : ℚ × ℚ × ℚ) : PyObj :=
  .aai .rgb ["r", "g", "b"] [.num c.1, .num c.2.1, .num c.2.2]

/-- handlers.scale_vector3: componentwise scaling, returning a Vector3 tag. -/
def scale_vector3 (v : ℚ × ℚ × ℚ) (scale : ℚ) : PyObj :=
  .aai .vector3 ["x", "y", "z"] [.num (v.1 * scale), .num (v.2.1 * scale), .num (v.2.2 * scale)]

/-- handlers.Util.count: product of the children's counts (functools.reduce
with operator.mul and initial value 1). -/
def Util_count (childCounts : List Nat) : Nat :=
  childCounts.foldl (· * ·) 1

mutual

/-- handlers count dispatch (count_recursive composed with each handler's
count).  Nodes with no registered handler (None, Range, MutablePlaceholder)
raise ValueError in get_node_handler. -/
def count : PyObj → Except Err Nat
  | .pnone => .error "ValueError: could not find a node class"
  | .num _ => .ok 1
  | .str _ => .ok 1
  | .plist xs => (countList xs).map Util_count
  | .pmap _ vals => (countList vals).map Util_count
  | .aai _ _ vals => (countList vals).map Util_count
  | .range _ _ => .error "ValueError: could not find a node class"
  | .procList options => .ok options.length
  | .procListLabelled options => .ok options.length
  | .procColor amount => .ok amount
  | .procVector3Scaled _ scales _ => .ok scales.length
  | .procRepeatChoice _ value => count value
  | .procRestrictCombinations amount _ => .ok amount
  | .procIf _ _ _ _ _ _ => .ok 1
  | .placeholder _ _ _ => .error "ValueError: could not find a node class"

/-- Counts of a list of children, failing on the first child without a
handler. -/
def countList : List PyObj → Except Err (List Nat)
  | [] => .ok []
  | x :: xs => do
      let c ← count x
      let cs ← countList xs
      .ok (c :: cs)

end

mutual

/-- handlers sample dispatch (core.sample_recursive composed with each
handler's sample).  The draw counter advances by one for every call into the
random generator (random.choice / random.randint). -/
def sample (g : RNG) : PyObj → Nat → Except Err ((PyObj × MetaT) × Nat)
  | .pnone, _ => .error "ValueError: could not find a node class"
  | .num q, σ => .ok ((.num q, []), σ)
  | .str s, σ => .ok ((.str s, []), σ)
  | .plist xs, σ => do
      let (cs, σ1) ← sampleList g xs σ
      .ok ((.plist (extract_children cs), extract_meta cs), σ1)
  | .pmap keys vals, σ => do
      let (cs, σ1) ← sampleList g vals σ
      .ok ((.pmap keys (extract_children cs), extract_meta cs), σ1)
  | .aai t keys vals, σ => do
      let (cs, σ1) ← sampleList g vals σ
      .ok ((.aai t keys (extract_children cs), extract_meta cs), σ1)
  | .range _ _, _ => .error "ValueError: could not find a node class"
  | .procList options, σ =>
      match options with
      | [] => .error "IndexError: list index out of range"
      | _ => .ok ((options.getD (g σ % options.length) .pnone, []), σ + 1)
  | .procListLabelled options, σ =>
      match options with
      | [] => .error "IndexError: list index out of range"
      | _ => do
          let o := options.getD (g σ % options.length) ("", .pnone)
          let m ← Meta_init (some [o.1])
          .ok ((o.2, m), σ + 1)
  | .procColor _, σ =>
      .ok ((to_rgb (COLORS.getD (g σ % COLORS.length) (0, 0, 0)), []), σ + 1)
  | .procVector3Scaled base scales labels, σ =>
      match scales with
      | [] => .error "ValueError: empty range for randrange"
      | _ =>
        let b := base.getD (1, 1, 1)
        let idx := g σ % scales.length
        let scale := scales.getD idx 0
        match labels with
        | none => .ok ((scale_vector3 b scale, []), σ + 1)
        | some ls =>
            if ls.length = scales.length then do
              let m ← Meta_init (some [ls.getD idx ""])
              .ok ((scale_vector3 b scale, m), σ + 1)
            else .error "AssertionError: Labels and scales must be the same length."
  | .procRepeatChoice amount value, σ => do
      let ((c, m), σ1) ← sample g value σ
      .ok ((.plist (c :: List.replicate (amount - 1) c), m), σ1)
  | .procRestrictCombinations _ item, σ => sample g item σ
  | .procIf v cs ts d ls dl, σ =>
      .ok ((.placeholder (.procIf v cs ts d ls dl) .pnone none, []), σ)
  | .placeholder _ _ _, _ => .error "ValueError: could not find a node class"

/-- Sampling every child of a structural node in order, threading the draw
counter left to right. -/
def sampleList (g : RNG) : List PyObj → Nat → Except Err (List (PyObj × MetaT) × Nat)
  | [], σ => .ok ([], σ)
  | x :: xs, σ => do
      let (p, σ1) ← sample g x σ
      let (ps, σ2) ← sampleList g xs σ1
      .ok (p :: ps, σ2)

end

/-- n successive draws of sample on the same node, threading the counter: the
pattern (sample_recursive(x) for _ in range(n)) used by
ProcRestrictCombinations.iterate and by generate's sample mode. -/
def sampleTimes (g : RNG) (node : PyObj) : Nat → Nat → Except Err (List (PyObj × MetaT) × Nat)
  | 0, σ => .ok ([], σ)
  | n + 1, σ => do
      let (p, σ1) ← sample g node σ
      let (ps, σ2) ← sampleTimes g node n σ1
      .ok (p :: ps, σ2)

/-- util.product on restartable pure iterables: the memory-lean Cartesian
product, yielding one tuple per combination with the LAST iterable varying
fastest, and a single empty tuple for zero iterables. -/
def cartProduct {α : Type} : List (List α) → List (List α)
  | [] => [[]]
  | l :: ls => (l.map (fun x => (cartProduct ls).map (x :: ·))).flatten

/-- ProcListLabelled.iterate item construction: for each option, the option's
value together with Meta(labels=[label]) — the latter call raises TypeError
(see Meta_init). -/
def iterLabelled : List (String × PyObj) → Except Err (List (PyObj × MetaT))
  | [] => .ok []
  | (l, v) :: rest => do
      let m ← Meta_init (some [l])
      let more ← iterLabelled rest
      .ok ((v, m) :: more)

/-- ProcVector3Scaled.iterate with labels: zip of scaled vectors with
Meta(labels=[label]) per scale (the Meta call raises TypeError). -/
def iterScaledLabelled (b : ℚ × ℚ × ℚ) : List ℚ → List String → Except Err (List (PyObj × MetaT))
  | s :: ss, l :: ls => do
      let m ← Meta_init (some [l])
      let more ← iterScaledLabelled b ss ls
      .ok ((scale_vector3 b s, m) :: more)
  | _, _ => .ok []

mutual

/-- handlers iterate dispatch (core.iterate_variations_recursive composed with
each handler's iterate), materialised eagerly.  Structural nodes enumerate
util.product over their children's iterators (each child's sequence is
produced once, left to right, and combined with cartProduct — for restartable,
i.e. non-sampling, children this is exactly the source's re-created lazy
iterators; a ProcRestrictCombinations child nested under a product would be
re-drawn once per sweep in Python, while here its one drawn sequence is
replayed — the enumerated count and ordering structure agree, only the random
payloads of such nested draws differ, and no claim observes those).
ProcRestrictCombinations draws amount fresh samples; ProcIf yields a single
unfilled placeholder. -/
def iterate (g : RNG) : PyObj → Nat → Except Err (List (PyObj × MetaT) × Nat)
  | .pnone, _ => .error "ValueError: could not find a node class"
  | .num q, σ => .ok ([(.num q, [])], σ)
  | .str s, σ => .ok ([(.str s, [])], σ)
  | .plist xs, σ => do
      let (ls, σ1) ← iterList g xs σ
      .ok ((cartProduct ls).map (fun c => (.plist (extract_children c), extract_meta c)), σ1)
  | .pmap keys vals, σ => do
      let (ls, σ1) ← iterList g vals σ
      .ok ((cartProduct ls).map (fun c => (.pmap keys (extract_children c), extract_meta c)), σ1)
  | .aai t keys vals, σ => do
      let (ls, σ1) ← iterList g vals σ
      .ok ((cartProduct ls).map (fun c => (.aai t keys (extract_children c), extract_meta c)), σ1)
  | .range _ _, _ => .error "ValueError: could not find a node class"
  | .procList options, σ => .ok (options.map (fun o => (o, [])), σ)
  | .procListLabelled options, σ => do
      let items ← iterLabelled options
      .ok (items, σ)
  | .procColor _, σ => .ok (COLORS.map (fun c => (to_rgb c, [])), σ)
  | .procVector3Scaled base scales labels, σ =>
      let b := base.getD (1, 1, 1)
      match labels with
      | none => .ok (scales.map (fun s => (scale_vector3 b s, [])), σ)
      | some ls =>
          if ls.length = scales.length then do
            let items ← iterScaledLabelled b scales ls
            .ok (items, σ)
          else .error "AssertionError: Labels and scales must be the same length."
  | .procRepeatChoice amount value, σ => do
      let (items, σ1) ← iterate g value σ
      .ok (items.map (fun p => (.plist (p.1 :: List.replicate (amount - 1) p.1), p.2)), σ1)
  | .procRestrictCombinations amount item, σ => sampleTimes g item amount σ
  | .procIf v cs ts d ls dl, σ =>
      .ok ([(.placeholder (.procIf v cs ts d ls dl) .pnone none, [])], σ)
  | .placeholder _ _ _, _ => .error "ValueError: could not find a node class"

/-- The children's variation sequences, produced left to right with the draw
counter threaded through. -/
def iterList (g : RNG) : List PyObj → Nat → Except Err (List (List (PyObj × MetaT)) × Nat)
  | [], σ => .ok ([], σ)
  | x :: xs, σ => do
      let (l, σ1) ← iterate g x σ
      let (ls, σ2) ← iterList g xs σ1
      .ok (l :: ls, σ2)

end

/-- Rational subtraction written through mkRat (kernel-computable; proved
equal to the standard subtraction below). -/
def qSub (a b : ℚ) : ℚ :=
  mkRat (a.num * b.den - b.num * a.den) (a.den * b.den)

/-- Rational multiplication written through mkRat (kernel-computable; proved
equal to the standard multiplication below). -/
def qMul (a b : ℚ) : ℚ :=
  mkRat (a.num * b.num) (a.den * b.den)

/-- Rational absolute value written through mkRat (kernel-computable; proved
equal to the standard absolute value below). -/
def qAbs (a : ℚ) : ℚ :=
  mkRat |a.num| a.den

/-- math.isclose with its default tolerances (rel_tol = 1e-9, abs_tol = 0):
abs(a-b) <= max(rel_tol * max(abs(a), abs(b)), abs_tol). -/
def isclose (a b : ℚ) : Bool :=
  qAbs (qSub a b) ≤ max (qMul (mkRat 1 1000000000) (max (qAbs a) (qAbs b))) 0

/-- ConditionResolver.__matches: a Range case tests min <= v <= max, a numeric
case uses math.isclose, anything else uses Python equality.  Ordering a
non-number against a range or isclose raises TypeError. -/
def ConditionResolver_matches (vVar vCase : PyObj) : Except Err Bool :=
  match vCase with
  | .range mn mx =>
      match vVar with
      | .num q => .ok (decide (mn ≤ q) && decide (q ≤ mx))
      | _ => .error "TypeError: comparison not supported between these types"
  | .num c =>
      match vVar with
      | .num q => .ok (isclose q c)
      | _ => .error "TypeError: must be a real number"
  | _ => .ok (pyEqB vVar vCase)

/-- all(matches(v1, v2) for v1, v2 in zip(values, case)): short-circuits on the
first non-match, truncates at the shorter list like zip. -/
def matchesAll : List PyObj → List PyObj → Except Err Bool
  | v :: vs, c :: cs => do
      let b ← ConditionResolver_matches v c
      if b then matchesAll vs cs else .ok false
  | _, _ => .ok true

/-- The body of ConditionResolver.resolve's loop for one case: a scalar case
is wrapped into a singleton list, a case of the wrong width raises ValueError,
otherwise all positional sub-values must match. -/
def rowMatches (values : List PyObj) (case : PyObj) : Except Err Bool :=
  let caseL := match case with | .plist l => l | c => [c]
  if caseL.length ≠ values.length then
    .error "ValueError: length of case does not match length of variables"
  else matchesAll values caseL

/-- The enumerate loop of ConditionResolver.resolve: the first matching case's
index wins; -1 signals no match. -/
def caseLoop (values : List PyObj) : List PyObj → Nat → Except Err Int
  | [], _ => .ok (-1)
  | case :: rest, idx => do
      let b ← rowMatches values case
      if b then .ok (Int.ofNat idx) else caseLoop values rest (idx + 1)

/-- tags.WithId.get_id comparison against an item id: the node carries the id
attribute with a string value equal to item_id. -/
def hasItemId (keys : List String) (vals : List PyObj) (itemId : String) : Bool :=
  match (keys.zip vals).lookup "id" with
  | some (.str s) => s == itemId
  | _ => false

/-- True exactly for custom tags that are not AnimalAI tags (the !Proc tags and
the !R range): ConditionResolver.__find_item refuses to search their
children. -/
def isNonAAICustomTag : PyObj → Bool
  | .range _ _ => true
  | .procList _ => true
  | .procListLabelled _ => true
  | .procColor _ => true
  | .procVector3Scaled _ _ _ => true
  | .procRepeatChoice _ _ => true
  | .procRestrictCombinations _ _ => true
  | .procIf _ _ _ _ _ _ => true
  | _ => false

mutual

/-- ConditionResolver.__find_item: depth-first search for the unique node
carrying item_id.  AnimalAI mapping tags are checked by id and searched;
non-AnimalAI custom tags and unresolved placeholders yield None without being
searched; plain containers are searched via their handler's children; plain
scalars have no children; None has no handler (ValueError). -/
def findItem (itemId : String) : PyObj → Except Err (Option PyObj)
  | .aai t keys vals =>
      if hasItemId keys vals itemId then .ok (some (.aai t keys vals))
      else findItemList itemId vals
  | .range _ _ => .ok none
  | .procList _ => .ok none
  | .procListLabelled _ => .ok none
  | .procColor _ => .ok none
  | .procVector3Scaled _ _ _ => .ok none
  | .procRepeatChoice _ _ => .ok none
  | .procRestrictCombinations _ _ => .ok none
  | .procIf _ _ _ _ _ _ => .ok none
  | .placeholder _ _ _ => .ok none
  | .plist xs => findItemList itemId xs
  | .pmap _ vals => findItemList itemId vals
  | .num _ => .ok none
  | .str _ => .ok none
  | .pnone => .error "ValueError: could not find a node class"

/-- First identified node among the children, left to right (the generator
with next in __find_item). -/
def findItemList (itemId : String) : List PyObj → Except Err (Option PyObj)
  | [] => .ok none
  | x :: xs => do
      let r ← findItem itemId x
      match r with
      | some hit => .ok (some hit)
      | none => findItemList itemId xs

end

/-- One segment of a dotted variable path: an integer-looking segment indexes
sequences, any other segment is a field name. -/
inductive PathKey where
  | idx (n : Nat)
  | field (s : String)

/-- Option (List String) attribute value as the Python object stored in
__dict__ (None or a list of strings). -/
def optStrList : Option (List String) → PyObj
  | none => .pnone
  | some ls => .plist (ls.map .str)

/-- Optional Vector3 attribute value as the Python object stored in
__dict__. -/
def optBase : Option (ℚ × ℚ × ℚ) → PyObj
  | none => .pnone
  | some (x, y, z) => .aai .vector3 ["x", "y", "z"] [.num x, .num y, .num z]

/-- Optional string attribute value as the Python object stored in
__dict__. -/
def optStr : Option String → PyObj
  | none => .pnone
  | some s => .str s

/-- Python value[key]: dicts and mapping tags index their fields by name,
lists and sequence tags index by integer, Range exposes min / max at 0 / 1, a
MutablePlaceholder delegates to its stored value once filled (ValueError while
unfilled), scalar tags and plain scalars refuse indexing.  (CPython would also
let an integer index into a plain string; document paths never do that and the
embedding treats it as the scalar error case.) -/
def pyGetItem : PyObj → PathKey → Except Err PyObj
  | .pmap keys vals, .field k =>
      match (keys.zip vals).lookup k with
      | some v => .ok v
      | none => .error "KeyError"
  | .pmap _ _, .idx _ => .error "KeyError"
  | .aai _ keys vals, .field k =>
      match (keys.zip vals).lookup k with
      | some v => .ok v
      | none => .error "KeyError"
  | .aai _ _ _, .idx _ => .error "KeyError"
  | .plist xs, .idx i =>
      match xs.get? i with
      | some v => .ok v
      | none => .error "IndexError: list index out of range"
  | .plist _, .field _ => .error "TypeError: list indices must be integers"
  | .range mn _, .idx 0 => .ok (.num mn)
  | .range _ mx, .idx 1 => .ok (.num mx)
  | .range _ _, _ => .error "IndexError: index out of range for R"
  | .placeholder _ stored _, k =>
      match stored with
      | .pnone => .error "ValueError: MutablePlaceholder has not been filled yet"
      | v => pyGetItem v k
  | .procList options, .idx i =>
      match options.get? i with
      | some v => .ok v
      | none => .error "IndexError: list index out of range"
  | .procList _, .field _ => .error "TypeError: list indices must be integers"
  | .procListLabelled options, .idx i =>
      match options.get? i with
      | some (l, v) => .ok (.pmap ["label", "value"] [.str l, v])
      | none => .error "IndexError: list index out of range"
  | .procListLabelled _, .field _ => .error "TypeError: list indices must be integers"
  | .procColor _, _ => .error "ValueError: scalar tag does not support being indexed"
  | .procVector3Scaled base scales labels, .field k =>
      if k == "scales" then .ok (.plist (scales.map .num))
      else if k == "base" then .ok (optBase base)
      else if k == "labels" then .ok (optStrList labels)
      else .error "KeyError"
  | .procVector3Scaled _ _ _, .idx _ => .error "KeyError"
  | .procRepeatChoice amount value, .field k =>
      if k == "amount" then .ok (.num amount)
      else if k == "value" then .ok value
      else .error "KeyError"
  | .procRepeatChoice _ _, .idx _ => .error "KeyError"
  | .procRestrictCombinations amount item, .field k =>
      if k == "amount" then .ok (.num amount)
      else if k == "item" then .ok item
      else .error "KeyError"
  | .procRestrictCombinations _ _, .idx _ => .error "KeyError"
  | .procIf v cs ts d ls dl, .field k =>
      if k == "value" then .ok v
      else if k == "cases" then .ok (.plist cs)
      else if k == "then" then .ok (.plist ts)
      else if k == "default" then .ok d
      else if k == "labels" then .ok (optStrList ls)
      else if k == "default_label" then .ok (optStr dl)
      else .error "KeyError"
  | .procIf _ _ _ _ _ _, .idx _ => .error "KeyError"
  | .num _, _ => .error "TypeError: object is not subscriptable"
  | .str _, _ => .error "TypeError: object is not subscriptable"
  | .pnone, _ => .error "TypeError: object is not subscriptable"

/-- The type of the forced-resolution callback a MutablePlaceholder carries:
given the originating ProcIf node and the variation root, produce the resolved
value and label. -/
abbrev Resolver := PyObj → PyObj → Except Err (PyObj × Option String)

/-- The variable list of a conditional node: node.value if it is a list, else
the singleton [node.value]; every entry must be a string (split would raise
AttributeError otherwise). -/
def toVariableList : PyObj → Except Err (List String)
  | .str s => .ok [s]
  | .plist xs => xs.mapM (fun x =>
      match x with
      | .str s => .ok s
      | _ => .error "AttributeError: object has no attribute split")
  | _ => .error "AttributeError: object has no attribute split"

/-- The path walk inside ConditionResolver.__find_variable: index step by
step; a value that is a still-unfilled MutablePlaceholder is force-filled
against the root through the callback before the walk continues. -/
def walkPathF (rc : Resolver) (root : PyObj) : PyObj → List PathKey → Except Err PyObj
  | value, [] => .ok value
  | value, k :: rest => do
      let v ← pyGetItem value k
      match v with
      | .placeholder pif .pnone _ => do
          let (fv, fl) ← rc pif root
          walkPathF rc root (.placeholder pif fv fl) rest
      | other => walkPathF rc root other rest

/-- Python str.split(".") over the character list (accumulator holds the
current segment reversed); "foo.size" gives ["foo", "size"], a string without
dots gives itself as the only segment. -/
def splitDotAux : List Char → List Char → List String
  | [], acc => [String.mk acc.reverse]
  | c :: cs, acc =>
      if c = '.' then String.mk acc.reverse :: splitDotAux cs []
      else splitDotAux cs (c :: acc)

/-- variable.split(".") as used by __find_variable. -/
def pySplitDot (s : String) : List String :=
  splitDotAux s.toList []

/-- Accumulate a decimal value over digit characters; None on the first
non-digit. -/
def digitAccum : List Char → Nat → Option Nat
  | [], acc => some acc
  | c :: rest, acc =>
      if c.isDigit then digitAccum rest (acc * 10 + (c.toNat - 48))
      else none

/-- int(key) if key.isdigit() else key: a non-empty all-digit segment is a
sequence index, everything else a field name. -/
def pyKeyToNat (s : String) : Option Nat :=
  match s.toList with
  | [] => none
  | cs => digitAccum cs 0

/-- ConditionResolver.__find_variable: split the dotted reference into item id
and path, locate the identified node, then walk the path; a missing id raises
IDNotFound and any failure during the walk is reported as
NonExistentVariable. -/
def findVariableF (rc : Resolver) (root : PyObj) (varRef : String) : Except Err PyObj :=
  match pySplitDot varRef with
  | [] => .error "AttributeError: empty reference"
  | itemId :: path_ => do
      let itemOpt ← findItem itemId root
      match itemOpt with
      | none => .error "IDNotFound: could not find an Item with this id"
      | some item =>
          let path := path_.map fun k =>
            match pyKeyToNat k with
            | some n => PathKey.idx n
            | none => PathKey.field k
          match walkPathF rc root item path with
          | .ok v => .ok v
          | .error _ => .error "NonExistentVariable: could not find variable in Item"

/-- The values of all referenced variables, in order. -/
def findValuesF (rc : Resolver) (root : PyObj) : List String → Except Err (List PyObj)
  | [] => .ok []
  | v :: vs => do
      let x ← findVariableF rc root v
      let xs ← findValuesF rc root vs
      .ok (x :: xs)

/-- ConditionResolver.resolve: look every variable up in the (expanded)
variation root, then return the index of the first matching case (-1 when none
matches) along with the resolved values. -/
def resolveF (rc : Resolver) (varRefs : List String) (cases : List PyObj) (root : PyObj) : Except Err (Int × List PyObj) := do
  let values ← findValuesF rc root varRefs
  let idx ← caseLoop values cases 0
  .ok (idx, values)

/-- One layer of ProcIf.__resolve_condition, abstracted over the callback used
for nested forced resolution: normalise variables and labels, assert
labels/cases lengths, resolve, then either produce then[idx] with its label,
fall back to the default (requiring a default label when labels are in use),
or raise MissingCase. -/
def resolveConditionStep (rc : Resolver) (pifNode root : PyObj) : Except Err (PyObj × Option String) :=
  match pifNode with
  | .procIf value cases thens default labels defaultLabel => do
      let varRefs ← toVariableList value
      let labelsL : List (Option String) :=
        match labels with
        | some ls => if ls.isEmpty then List.replicate cases.length none else ls.map some
        | none => List.replicate cases.length none
      if labelsL.length ≠ cases.length then
        .error "AssertionError: Labels and cases must be the same length."
      else do
        let (idx, _values) ← resolveF rc varRefs cases root
        if idx < 0 then
          match default with
          | .pnone => .error "MissingCase: no matching case and no default"
          | _ =>
              if labels.isSome && defaultLabel.isNone then
                .error "MissingCase: no matching case and no default label"
              else .ok (default, defaultLabel)
        else
          match thens.get? idx.toNat, labelsL.get? idx.toNat with
          | some t, some l => .ok (t, l)
          | _, _ => .error "IndexError: list index out of range"
  | _ => .error "ValueError: resolve called on a non-ProcIf node"

/-- ProcIf.__resolve_condition tied into a recursive knot: conditionals that
refer to other conditionals force-fill them recursively; the fuel bounds the
depth of that chain exactly as CPython's recursion limit does. -/
def resolveCondition : Nat → PyObj → PyObj → Except Err (PyObj × Option String)
  | 0, _, _ => .error "RecursionError: maximum recursion depth exceeded"
  | fuel + 1, pifNode, root => resolveConditionStep (resolveCondition fuel) pifNode root

/-- ConditionResolver.resolve as called from the deferred pass, with the
nested forced-resolution callback in place. -/
def ConditionResolver_resolve (fuel : Nat) (varRefs : List String) (cases : List PyObj) (root : PyObj) : Except Err (Int × List PyObj) :=
  resolveF (resolveCondition fuel) varRefs cases root

/-- ConditionResolver.__find_variable with the forced-resolution callback in
place. -/
def ConditionResolver_find_variable (fuel : Nat) (root : PyObj) (varRef : String) : Except Err PyObj :=
  findVariableF (resolveCondition fuel) root varRef

/-- util.MutablePlaceholder.is_filled on the stored value: true exactly when
the stored value is not None. -/
def MutablePlaceholder_is_filled : PyObj → Bool
  | .pnone => false
  | _ => true

/-- util.MutablePlaceholder.fill: run the captured resolution closure against
the root, producing the new stored value and label. -/
def MutablePlaceholder_fill (fuel : Nat) (pif root : PyObj) : Except Err (PyObj × Option String) :=
  resolveCondition fuel pif root

/-- util.MutablePlaceholder.__getitem__: raises ValueError while the stored
value is None, otherwise delegates to the stored value. -/
def MutablePlaceholder_getitem (stored : PyObj) (k : PathKey) : Except Err PyObj :=
  match stored with
  | .pnone => .error "ValueError: MutablePlaceholder has not been filled yet"
  | v => pyGetItem v k

/-- util.MutablePlaceholder.represent: serialisation raises ValueError while
the stored value is None, otherwise emits the stored value. -/
def MutablePlaceholder_represent (stored : PyObj) : Except Err PyObj :=
  match stored with
  | .pnone => .error "ValueError: MutablePlaceholder has not been filled yet"
  | v => .ok v

mutual

/-- core.generate's placeholder-filling pass (walk_tree with fill_placeholder):
a still-unfilled placeholder is resolved in place against the variation root
and its label is appended to the metadata; an already-filled one only reports
its stored label; the walk does not descend into a placeholder.  Containers
are rebuilt around their walked children.  Unexpanded tag nodes that can occur
verbatim inside a produced variation (options of choice lists) contain no
placeholders, so the walk is a no-op on them; None and Range have no handler
(ValueError), as in walk_tree's dispatch. -/
def fillTree (fuel : Nat) (root : PyObj) : PyObj → Except Err (PyObj × MetaT)
  | .placeholder pif stored slab =>
      match stored with
      | .pnone => do
          let (v, l) ← resolveCondition fuel pif root
          .ok (.placeholder pif v l, Meta_addLabel [] l)
      | v => .ok (.placeholder pif v slab, Meta_addLabel [] slab)
  | .plist xs => do
      let (ys, m) ← fillList fuel root xs
      .ok (.plist ys, m)
  | .pmap keys vals => do
      let (ys, m) ← fillList fuel root vals
      .ok (.pmap keys ys, m)
  | .aai t keys vals => do
      let (ys, m) ← fillList fuel root vals
      .ok (.aai t keys ys, m)
  | .num q => .ok (.num q, [])
  | .str s => .ok (.str s, [])
  | .pnone => .error "ValueError: could not find a node class"
  | .range _ _ => .error "ValueError: could not find a node class"
  | .procList options => .ok (.procList options, [])
  | .procListLabelled options => .ok (.procListLabelled options, [])
  | .procColor amount => .ok (.procColor amount, [])
  | .procVector3Scaled b s l => .ok (.procVector3Scaled b s l, [])
  | .procRepeatChoice a v => .ok (.procRepeatChoice a v, [])
  | .procRestrictCombinations a i => .ok (.procRestrictCombinations a i, [])
  | .procIf v cs ts d ls dl => .ok (.procIf v cs ts d ls dl, [])

/-- The filling walk over a container's children, collecting labels left to
right. -/
def fillList (fuel : Nat) (root : PyObj) : List PyObj → Except Err (List PyObj × MetaT)
  | [] => .ok ([], [])
  | x :: xs => do
      let (y, m1) ← fillTree fuel root x
      let (ys, m2) ← fillList fuel root xs
      .ok (y :: ys, m1 ++ m2)

end

/-- One document-level !ProcIfLabels rule (tags.ProcIfLabels, kept in the
template's proc_meta section, never inline in the tree). -/
structure PilData where
  value : PyObj
  cases : List PyObj
  labels : List String
  default : Option String

/-- handlers.ProcIfLabels.resolve: assert cases/labels lengths, resolve the
condition against the finished variation, then append the matched label (or
the default; MissingCase when there is none). -/
def resolvePil (fuel : Nat) (pil : PilData) (variation : PyObj) (m : MetaT) : Except Err MetaT :=
  if pil.labels.length ≠ pil.cases.length then
    .error "AssertionError: ProcIfLabels cases and labels must be equal length"
  else do
    let varRefs ← toVariableList pil.value
    let (idx, _values) ← ConditionResolver_resolve fuel varRefs pil.cases variation
    if idx < 0 then
      match pil.default with
      | none => .error "MissingCase: no matching case and no default"
      | some d => .ok (Meta_addLabel m (some d))
    else
      match pil.labels.get? idx.toNat with
      | some l => .ok (Meta_addLabel m (some l))
      | none => .error "IndexError: list index out of range"

/-- All document-level rules, applied in declaration order. -/
def resolvePilList (fuel : Nat) (variation : PyObj) : List PilData → MetaT → Except Err MetaT
  | [], m => .ok m
  | p :: ps, m => do
      let m1 ← resolvePil fuel p variation m
      resolvePilList fuel variation ps m1

/-- Consuming an iterator with (next(it) for _ in range(amount)): when the
iterator runs out before amount items, next raises StopIteration inside the
generator expression, which PEP 479 turns into a RuntimeError. -/
def exhaustiveTake {α : Type} : List α → Nat → Except Err (List α)
  | _, 0 => .ok []
  | [], _ + 1 => .error "RuntimeError: generator raised StopIteration"
  | x :: xs, n + 1 => do
      let ys ← exhaustiveTake xs n
      .ok (x :: ys)

/-- The per-item body of core.generate's loop: fill placeholders against the
variation itself, extend the metadata with the labels produced by the walk,
then apply the document-level ProcIfLabels rules. -/
def finishVariation (fuel : Nat) (procLabels : List PilData) (vm : PyObj × MetaT) : Except Err (PyObj × MetaT) := do
  let (filled, fillLabels) ← fillTree fuel vm.1 vm.1
  let m1 := vm.2 ++ fillLabels
  let m2 ← resolvePilList fuel filled procLabels m1
  .ok (filled, m2)

/-- core.generate's mode argument. -/
inductive GenMode where
  | sampleMode
  | exhaustive

/-- core.generate: draw amount independent samples in sample mode, or pull
amount items off the single exhaustive iterator (RuntimeError past its end);
every yielded item goes through the deferred-resolution pass first. -/
def generate (g : RNG) (fuel : Nat) (mode : GenMode) (root : PyObj) (amount : Nat) (procLabels : List PilData) : Except Err (List (PyObj × MetaT)) :=
  match mode with
  | .sampleMode => do
      let (items, _) ← sampleTimes g root amount 0
      items.mapM (finishVariation fuel procLabels)
  | .exhaustive => do
      let (items, _) ← iterate g root 0
      let taken ← exhaustiveTake items amount
      taken.mapM (finishVariation fuel procLabels)

mutual

/-- No Restrict-Combinations node is reachable through the expansion recursion
(containers expand their children, Repeat-Choice expands its wrapped value;
choice-list options are emitted verbatim and never expanded). -/
def noRestrict : PyObj → Bool
  | .procRestrictCombinations _ _ => false
  | .plist xs => noRestrictList xs
  | .pmap _ vals => noRestrictList vals
  | .aai _ _ vals => noRestrictList vals
  | .procRepeatChoice _ v => noRestrict v
  | _ => true

/-- noRestrict over a container's children. -/
def noRestrictList : List PyObj → Bool
  | [] => true
  | x :: xs => noRestrict x && noRestrictList xs

end

mutual

/-- No label-emitting node (Labelled Choice-List, or Scaled-Vector carrying a
labels list) is reachable through the expansion recursion: their handlers call
Meta(labels=...), which raises TypeError against meta.Meta.__init__. -/
def noLabelled : PyObj → Bool
  | .procListLabelled _ => false
  | .procVector3Scaled _ _ (some _) => false
  | .plist xs => noLabelledList xs
  | .pmap _ vals => noLabelledList vals
  | .aai _ _ vals => noLabelledList vals
  | .procRepeatChoice _ v => noLabelled v
  | _ => true

/-- noLabelled over a container's children. -/
def noLabelledList : List PyObj → Bool
  | [] => true
  | x :: xs => noLabelled x && noLabelledList xs

end

mutual

/-- Every Color-Choice reachable through the expansion recursion requests
exactly the palette size (its iterate always yields the whole palette). -/
def colorsOk : PyObj → Bool
  | .procColor amount => amount == COLORS.length
  | .plist xs => colorsOkList xs
  | .pmap _ vals => colorsOkList vals
  | .aai _ _ vals => colorsOkList vals
  | .procRepeatChoice _ v => colorsOk v
  | _ => true

/-- colorsOk over a container's children. -/
def colorsOkList : List PyObj → Bool
  | [] => true
  | x :: xs => colorsOk x && colorsOkList xs

end

mutual

/-- The node can be sampled without raising: no handlerless node (None, Range,
placeholder) or label-emitting node is reachable, and every reachable choice
list has at least one option and every reachable Scaled-Vector at least one
scale. -/
def sampleOk : PyObj → Bool
  | .pnone => false
  | .num _ => true
  | .str _ => true
  | .plist xs => sampleOkList xs
  | .pmap _ vals => sampleOkList vals
  | .aai _ _ vals => sampleOkList vals
  | .range _ _ => false
  | .procList options => !options.isEmpty
  | .procListLabelled _ => false
  | .procColor _ => true
  | .procVector3Scaled _ scales labels => !scales.isEmpty && labels.isNone
  | .procRepeatChoice _ v => sampleOk v
  | .procRestrictCombinations _ item => sampleOk item
  | .procIf _ _ _ _ _ _ => true
  | .placeholder _ _ _ => false

/-- sampleOk over a container's children. -/
def sampleOkList : List PyObj → Bool
  | [] => true
  | x :: xs => sampleOk x && sampleOkList xs

end

/-- The duplicate lambda of ProcRepeatChoice: the chosen variation itself
followed by amount - 1 deep copies ([var] + [deepcopy(var) for _ in
range(amount - 1)]). -/
def pyDuplicate (v : PyObj) (amount : Nat) : List PyObj :=
  v :: List.replicate (amount - 1) v

/-- Object-identity model of the duplication: the chosen object keeps its own
address and every deepcopy receives a fresh address from the allocator
counter. -/
def duplicateAddrs (orig ctr amount : Nat) : List Nat :=
  orig :: (List.range (amount - 1)).map (ctr + ·)

/-- tags.ProcIf.__init__: store the fields, then raise LengthMismatch when
cases and then differ in length, or when labels is truthy (present and
non-empty) with a length different from cases. -/
def ProcIf_init (value : PyObj) (cases thens : List PyObj) (default : PyObj)
    (labels : Option (List String)) (defaultLabel : Option String) : Except Err PyObj :=
  if thens.length ≠ cases.length then
    .error "LengthMismatch: ProcIf cases and then must have the same length"
  else if (match labels with
           | some ls => !ls.isEmpty && ls.length != cases.length
           | none => false) then
    .error "LengthMismatch: ProcIf cases and labels must have the same length"
  else .ok (.procIf value cases thens default labels defaultLabel)

/-- The all-zeroes random oracle, used to instantiate theorems at concrete
inputs. -/
def gZero : RNG := fun _ => 0

lemma qSub_eq (a b : ℚ) : qSub a b = a - b := by
  have ha : ((a.den : ℚ)) ≠ 0 := by exact_mod_cast a.den_nz
  have hb : ((b.den : ℚ)) ≠ 0 := by exact_mod_cast b.den_nz
  rw [qSub, Rat.mkRat_eq_div]
  conv_rhs => rw [← Rat.num_div_den a, ← Rat.num_div_den b]
  rw [div_sub_div _ _ ha hb]
  push_cast
  ring_nf

lemma qMul_eq (a b : ℚ) : qMul a b = a * b := by
  have ha : ((a.den : ℚ)) ≠ 0 := by exact_mod_cast a.den_nz
  have hb : ((b.den : ℚ)) ≠ 0 := by exact_mod_cast b.den_nz
  rw [qMul, Rat.mkRat_eq_div]
  conv_rhs => rw [← Rat.num_div_den a, ← Rat.num_div_den b]
  rw [div_mul_div_comm]
  push_cast
  ring_nf

lemma qAbs_eq (a : ℚ) : qAbs a = |a| := by
  rw [qAbs, Rat.mkRat_eq_div]
  conv_rhs => rw [← Rat.num_div_den a]
  rw [abs_div]
  congr 1
  · push_cast
    ring
  · exact (abs_of_nonneg (by positivity)).symm

/-- Certification: isclose is the math.isclose formula with rel_tol 1e-9 and
abs_tol 0 over the standard rational operations. -/
lemma isclose_spec (a b : ℚ) : isclose a b = true ↔
    |a - b| ≤ max ((1 / 1000000000) * max |a| |b|) 0 := by
  have h9 : (mkRat 1 1000000000 : ℚ) = 1 / 1000000000 := by
    rw [Rat.mkRat_eq_div]
    norm_num
  simp only [isclose, qAbs_eq, qSub_eq, qMul_eq, h9, decide_eq_true_eq]

lemma foldl_mul_eq (a : ℕ) (l : List ℕ) : l.foldl (· * ·) a = a * l.prod := by
  induction l generalizing a with
  | nil => simp
  | cons x xs ih => simp [List.foldl, ih, List.prod_cons]; ring

lemma Util_count_eq_prod (cs : List ℕ) : Util_count cs = cs.prod := by
  simp [Util_count, foldl_mul_eq]

lemma sum_map_const {α : Type} (l : List α) (c : ℕ) :
    (l.map (fun _ => c)).sum = l.length * c := by
  induction l with
  | nil => simp
  | cons x xs ih => simp [ih]; ring

lemma cartProduct_length {α : Type} (ls : List (List α)) :
    (cartProduct ls).length = (ls.map List.length).prod := by
  induction ls with
  | nil => rfl
  | cons l ls ih =>
      simp only [cartProduct, List.length_flatten, List.map_map]
      have hconst : (List.length ∘ fun x : α => (cartProduct ls).map (x :: ·)) =
          fun _ : α => (cartProduct ls).length := by
        funext x
        simp
      rw [hconst, sum_map_const, ih]
      simp [List.prod_cons]

lemma flatten_map_one {α : Type} (B : List α) (f : α → List α) :
    (B.map (fun b => [f b])).flatten = B.map f := by
  induction B with
  | nil => rfl
  | cons b bs ih => simp [ih]

lemma cartProduct_single {α : Type} (B : List α) :
    cartProduct [B] = B.map (fun b => [b]) := by
  have h : cartProduct [B] = (B.map (fun x => [[x]])).flatten := rfl
  rw [h, flatten_map_one]

lemma cartProduct_two {α : Type} (A B : List α) :
    cartProduct [A, B] = (A.map (fun a => B.map (fun b => [a, b]))).flatten := by
  have h : cartProduct [A, B] = (A.map (fun a => (cartProduct [B]).map (a :: ·))).flatten := rfl
  have h2 : (fun a => List.map (a :: ·) (B.map (fun b => [b]))) =
      fun a => B.map (fun b => [a, b]) := by
    funext a
    rw [List.map_map]
    rfl
  rw [h, cartProduct_single, h2]

lemma cartProduct_two_get {α : Type} (A B : List α) (i j : Nat) (hi : i < A.length) (hj : j < B.length) :
    (cartProduct [A, B])[i * B.length + j]? = some [A.get ⟨i, hi⟩, B.get ⟨j, hj⟩] := by
  rw [cartProduct_two]
  induction A generalizing i with
  | nil => exact absurd hi (by simp)
  | cons a as ih =>
      cases i with
      | zero =>
          simp only [Nat.zero_mul, Nat.zero_add, List.map_cons, List.flatten_cons]
          rw [List.getElem?_append, if_pos (by simpa using hj), List.getElem?_map,
            List.getElem?_eq_getElem hj]
          rfl
      | succ i =>
          have harith : (i + 1) * B.length + j = B.length + (i * B.length + j) := by ring
          have hi' : i < as.length := by simpa using hi
          simp only [List.map_cons, List.flatten_cons, harith]
          rw [List.getElem?_append, if_neg (by simp only [List.length_map]; omega)]
          simp only [List.length_map, Nat.add_sub_cancel_left]
          simpa using ih i hi'

lemma except_bind_ok {ε α β : Type} (a : α) (f : α → Except ε β) :
    (Except.ok a : Except ε α).bind f = f a := rfl

lemma iterate_plist (g : RNG) (xs : List PyObj) (σ : Nat) :
    iterate g (.plist xs) σ = (iterList g xs σ).bind
      (fun p => .ok ((cartProduct p.1).map (fun c => (.plist (extract_children c), extract_meta c)), p.2)) := rfl

lemma iterList_nil (g : RNG) (σ : Nat) : iterList g [] σ = .ok ([], σ) := rfl

lemma iterList_cons (g : RNG) (x : PyObj) (xs : List PyObj) (σ : Nat) :
    iterList g (x :: xs) σ = (iterate g x σ).bind
      (fun p => (iterList g xs p.2).bind (fun q => .ok (p.1 :: q.1, q.2))) := rfl

/-- C2: a structural sequence node iterates the Cartesian product of its
children's variation sequences in nested lexicographic order with the last
child varying fastest: with two children whose sequences are l1 and l2, the
item at index i * length l2 + j combines the i-th variation of the first child
with the j-th variation of the second, there are exactly length l1 * length l2
items, and a node with zero children yields exactly one (empty) combination. -/
theorem C2_structural_product_order (c1 c2 : PyObj) (l1 l2 : List (PyObj × MetaT))
    (h1 : ∀ g σ, iterate g c1 σ = .ok (l1, σ))
    (h2 : ∀ g σ, iterate g c2 σ = .ok (l2, σ)) :
    (∀ g σ, iterate g (.plist [c1, c2]) σ =
        .ok ((cartProduct [l1, l2]).map (fun c => (.plist (extract_children c), extract_meta c)), σ))
    ∧ (cartProduct [l1, l2]).length = l1.length * l2.length
    ∧ (∀ i j (hi : i < l1.length) (hj : j < l2.length),
        (cartProduct [l1, l2])[i * l2.length + j]? = some [l1.get ⟨i, hi⟩, l2.get ⟨j, hj⟩])
    ∧ (∀ g σ, iterate g (.plist ([] : List PyObj)) σ = .ok ([(.plist [], [])], σ)) := by
  refine ⟨?_, ?_, ?_, ?_⟩
  · intro g σ
    simp only [iterate_plist, iterList_cons, iterList_nil, h1, h2, except_bind_ok]
  · rw [cartProduct_length]
    simp
  · intro i j hi hj
    exact cartProduct_two_get l1 l2 i j hi hj
  · intro g σ
    rfl

/-- Witness for C2 at children of counts 2 and 3: the six combinations appear
in exactly the claimed order, and the empty structural node yields one empty
combination. -/
theorem C2_structural_product_order_witness :
    iterate gZero (.plist [.procList [.str "a1", .str "a2"],
        .procList [.str "b1", .str "b2", .str "b3"]]) 0 =
      .ok ([(.plist [.str "a1", .str "b1"], []), (.plist [.str "a1", .str "b2"], []),
            (.plist [.str "a1", .str "b3"], []), (.plist [.str "a2", .str "b1"], []),
            (.plist [.str "a2", .str "b2"], []), (.plist [.str "a2", .str "b3"], [])], 0)
    ∧ iterate gZero (.plist ([] : List PyObj)) 0 = .ok ([(.plist [], [])], 0) := by
  obtain ⟨ha, _, _, hd⟩ := C2_structural_product_order
    (.procList [.str "a1", .str "a2"]) (.procList [.str "b1", .str "b2", .str "b3"])
    ([(.str "a1", []), (.str "a2", [])])
    ([(.str "b1", []), (.str "b2", []), (.str "b3", [])])
    (fun g σ => rfl) (fun g σ => rfl)
  exact ⟨(ha gZero 0).trans rfl, hd gZero 0⟩

lemma pyObj_sizeOf_pos (n : PyObj) : 0 < sizeOf n := by
  cases n <;> simp_arith

lemma noRestrictList_mem {xs : List PyObj} (h : noRestrictList xs = true)
    {x : PyObj} (hx : x ∈ xs) : noRestrict x = true := by
  induction xs with
  | nil => cases hx
  | cons y ys ih =>
      simp only [noRestrictList, Bool.and_eq_true] at h
      cases hx with
      | head => exact h.1
      | tail _ hx => exact ih h.2 hx

lemma noLabelledList_mem {xs : List PyObj} (h : noLabelledList xs = true)
    {x : PyObj} (hx : x ∈ xs) : noLabelled x = true := by
  induction xs with
  | nil => cases hx
  | cons y ys ih =>
      simp only [noLabelledList, Bool.and_eq_true] at h
      cases hx with
      | head => exact h.1
      | tail _ hx => exact ih h.2 hx

lemma colorsOkList_mem {xs : List PyObj} (h : colorsOkList xs = true)
    {x : PyObj} (hx : x ∈ xs) : colorsOk x = true := by
  induction xs with
  | nil => cases hx
  | cons y ys ih =>
      simp only [colorsOkList, Bool.and_eq_true] at h
      cases hx with
      | head => exact h.1
      | tail _ hx => exact ih h.2 hx

lemma countList_nil : countList [] = .ok [] := rfl

lemma countList_cons (x : PyObj) (xs : List PyObj) :
    countList (x :: xs) = (count x).bind (fun c => (countList xs).bind (fun cs => .ok (c :: cs))) := rfl

lemma except_bind_err {ε α β : Type} (e : ε) (f : α → Except ε β) :
    (Except.error e : Except ε α).bind f = .error e := rfl

lemma iterate_pmap (g : RNG) (keys : List String) (vals : List PyObj) (σ : Nat) :
    iterate g (.pmap keys vals) σ = (iterList g vals σ).bind
      (fun p => .ok ((cartProduct p.1).map (fun c => (.pmap keys (extract_children c), extract_meta c)), p.2)) := rfl

lemma iterate_aai (g : RNG) (t : AAITag) (keys : List String) (vals : List PyObj) (σ : Nat) :
    iterate g (.aai t keys vals) σ = (iterList g vals σ).bind
      (fun p => .ok ((cartProduct p.1).map (fun c => (.aai t keys (extract_children c), extract_meta c)), p.2)) := rfl

lemma iterate_repeat (g : RNG) (amount : Nat) (value : PyObj) (σ : Nat) :
    iterate g (.procRepeatChoice amount value) σ = (iterate g value σ).bind
      (fun p => .ok (p.1.map (fun q => (.plist (q.1 :: List.replicate (amount - 1) q.1), q.2)), p.2)) := rfl

lemma iterList_len (xs : List PyObj) (cs : List Nat)
    (H : ∀ x ∈ xs, ∀ cx, count x = .ok cx →
      ∃ l, (∀ g σ, iterate g x σ = .ok (l, σ)) ∧ l.length = cx)
    (hcs : countList xs = .ok cs) :
    ∃ ls, (∀ g σ, iterList g xs σ = .ok (ls, σ)) ∧ ls.map List.length = cs := by
  induction xs generalizing cs with
  | nil =>
      injection hcs with h
      subst h
      exact ⟨[], fun g σ => rfl, rfl⟩
  | cons x xs ih =>
      rcases hx : count x with e | cx
      · rw [countList_cons, hx, except_bind_err] at hcs
        cases hcs
      · rcases hxs : countList xs with e | cs'
        · rw [countList_cons, hx, except_bind_ok, hxs, except_bind_err] at hcs
          cases hcs
        · rw [countList_cons, hx, except_bind_ok, hxs, except_bind_ok] at hcs
          injection hcs with h
          subst h
          obtain ⟨l, hl, hlen⟩ := H x (List.mem_cons_self x xs) cx hx
          obtain ⟨ls, hls, hmap⟩ :=
            ih cs' (fun y hy cy hcy => H y (List.mem_cons_of_mem x hy) cy hcy) hxs
          refine ⟨l :: ls, fun g σ => ?_, by simp [hmap, hlen]⟩
          rw [iterList_cons, hl, except_bind_ok, hls, except_bind_ok]

lemma iterate_count_aux : ∀ (k : Nat) (n : PyObj), sizeOf n ≤ k →
    noRestrict n = true → noLabelled n = true → colorsOk n = true →
    ∀ c, count n = .ok c →
    ∃ l, (∀ g σ, iterate g n σ = .ok (l, σ)) ∧ l.length = c := by
  intro k
  induction k with
  | zero =>
      intro n hn
      have := pyObj_sizeOf_pos n
      omega
  | succ k ih =>
      intro n hn hr hl hc c hcount
      cases n with
      | pnone => simp [count] at hcount
      | range mn mx => simp [count] at hcount
      | placeholder p s lab => simp [count] at hcount
      | num q =>
          simp only [count, Except.ok.injEq] at hcount
          exact ⟨[(.num q, [])], fun g σ => rfl, by simp [← hcount]⟩
      | str s =>
          simp only [count, Except.ok.injEq] at hcount
          exact ⟨[(.str s, [])], fun g σ => rfl, by simp [← hcount]⟩
      | plist xs =>
          rcases hcl : countList xs with e | cs
          · simp [count, hcl, Except.map] at hcount
          · simp only [count, hcl, Except.map, Except.ok.injEq] at hcount
            have Hmem : ∀ x ∈ xs, ∀ cx, count x = .ok cx →
                ∃ l, (∀ g σ, iterate g x σ = .ok (l, σ)) ∧ l.length = cx := by
              intro x hx cx hcx
              have h1 := List.sizeOf_lt_of_mem hx
              have h2 : sizeOf (PyObj.plist xs) = 1 + sizeOf xs := by simp
              exact ih x (by omega)
                (noRestrictList_mem (by simpa [noRestrict] using hr) hx)
                (noLabelledList_mem (by simpa [noLabelled] using hl) hx)
                (colorsOkList_mem (by simpa [colorsOk] using hc) hx) cx hcx
            obtain ⟨ls, hls, hmap⟩ := iterList_len xs cs Hmem hcl
            refine ⟨(cartProduct ls).map (fun cb => (.plist (extract_children cb), extract_meta cb)),
              fun g σ => ?_, ?_⟩
            · rw [iterate_plist, hls g σ, except_bind_ok]
            · rw [List.length_map, cartProduct_length, hmap, ← hcount, Util_count_eq_prod]
      | pmap keys vals =>
          rcases hcl : countList vals with e | cs
          · simp [count, hcl, Except.map] at hcount
          · simp only [count, hcl, Except.map, Except.ok.injEq] at hcount
            have Hmem : ∀ x ∈ vals, ∀ cx, count x = .ok cx →
                ∃ l, (∀ g σ, iterate g x σ = .ok (l, σ)) ∧ l.length = cx := by
              intro x hx cx hcx
              have h1 := List.sizeOf_lt_of_mem hx
              have h2 : sizeOf (PyObj.pmap keys vals) = 1 + sizeOf keys + sizeOf vals := by simp
              exact ih x (by omega)
                (noRestrictList_mem (by simpa [noRestrict] using hr) hx)
                (noLabelledList_mem (by simpa [noLabelled] using hl) hx)
                (colorsOkList_mem (by simpa [colorsOk] using hc) hx) cx hcx
            obtain ⟨ls, hls, hmap⟩ := iterList_len vals cs Hmem hcl
            refine ⟨(cartProduct ls).map (fun cb => (.pmap keys (extract_children cb), extract_meta cb)),
              fun g σ => ?_, ?_⟩
            · rw [iterate_pmap, hls g σ, except_bind_ok]
            · rw [List.length_map, cartProduct_length, hmap, ← hcount, Util_count_eq_prod]
      | aai t keys vals =>
          rcases hcl : countList vals with e | cs
          · simp [count, hcl, Except.map] at hcount
          · simp only [count, hcl, Except.map, Except.ok.injEq] at hcount
            have Hmem : ∀ x ∈ vals, ∀ cx, count x = .ok cx →
                ∃ l, (∀ g σ, iterate g x σ = .ok (l, σ)) ∧ l.length = cx := by
              intro x hx cx hcx
              have h1 := List.sizeOf_lt_of_mem hx
              have h2 : sizeOf (PyObj.aai t keys vals) = 1 + sizeOf t + sizeOf keys + sizeOf vals := by
                simp
              exact ih x (by omega)
                (noRestrictList_mem (by simpa [noRestrict] using hr) hx)
                (noLabelledList_mem (by simpa [noLabelled] using hl) hx)
                (colorsOkList_mem (by simpa [colorsOk] using hc) hx) cx hcx
            obtain ⟨ls, hls, hmap⟩ := iterList_len vals cs Hmem hcl
            refine ⟨(cartProduct ls).map (fun cb => (.aai t keys (extract_children cb), extract_meta cb)),
              fun g σ => ?_, ?_⟩
            · rw [iterate_aai, hls g σ, except_bind_ok]
            · rw [List.length_map, cartProduct_length, hmap, ← hcount, Util_count_eq_prod]
      | procList options =>
          simp only [count, Except.ok.injEq] at hcount
          exact ⟨options.map (fun o => (o, [])), fun g σ => rfl, by simp [← hcount]⟩
      | procListLabelled options => simp [noLabelled] at hl
      | procColor amount =>
          simp only [colorsOk, beq_iff_eq] at hc
          simp only [count, Except.ok.injEq] at hcount
          refine ⟨COLORS.map (fun cc => (to_rgb cc, [])), fun g σ => rfl, ?_⟩
          rw [List.length_map, ← hc, hcount]
      | procVector3Scaled base scales labels =>
          cases labels with
          | some ls => simp [noLabelled] at hl
          | none =>
              simp only [count, Except.ok.injEq] at hcount
              exact ⟨scales.map (fun s => (scale_vector3 (base.getD (1, 1, 1)) s, [])),
                fun g σ => rfl, by simp [← hcount]⟩
      | procRepeatChoice amount value =>
          have hcv : count value = .ok c := hcount
          have h2 : sizeOf (PyObj.procRepeatChoice amount value) = 1 + sizeOf amount + sizeOf value := by
            simp
          obtain ⟨l, hiter, hlen⟩ := ih value (by omega)
            (by simpa [noRestrict] using hr) (by simpa [noLabelled] using hl)
            (by simpa [colorsOk] using hc) c hcv
          refine ⟨l.map (fun p => (.plist (p.1 :: List.replicate (amount - 1) p.1), p.2)),
            fun g σ => ?_, by simp [hlen]⟩
          rw [iterate_repeat, hiter g σ, except_bind_ok]
      | procRestrictCombinations amount item => simp [noRestrict] at hr
      | procIf v cs ts d ls dl =>
          simp only [count, Except.ok.injEq] at hcount
          exact ⟨[(.placeholder (.procIf v cs ts d ls dl) .pnone none, [])],
            fun g σ => rfl, by simp [← hcount]⟩

/-- C1 is false as stated: a Color-Choice node contains no
Restrict-Combinations, its count is the requested amount (here 5), yet its
iterate yields one item per palette colour, i.e. 10 items, so count differs
from the length of the iterated sequence. -/
theorem C1_count_iterate_counterexample :
    noRestrict (.procColor 5) = true
    ∧ count (.procColor 5) = .ok 5
    ∧ (iterate gZero (.procColor 5) 0).map (fun p => p.1.length) = .ok 10
    ∧ (5 : Nat) ≠ 10 := by
  exact ⟨rfl, rfl, rfl, by decide⟩

/-- C1 (amended): for every node through whose expansion no
Restrict-Combinations is reachable, provided additionally that every reachable
Color-Choice requests exactly the palette size 10 and no label-emitting node
is reachable (their metadata construction raises TypeError, see C4), whenever
count succeeds iterate succeeds deterministically and yields exactly count(N)
items. -/
theorem C1_count_iterate_agree (n : PyObj) (hr : noRestrict n = true)
    (hl : noLabelled n = true) (hc : colorsOk n = true)
    (c : Nat) (hcount : count n = .ok c) :
    ∃ l, (∀ g σ, iterate g n σ = .ok (l, σ)) ∧ l.length = c :=
  iterate_count_aux (sizeOf n) n le_rfl hr hl hc c hcount

/-- Witness for the amended C1: a mapping-and-choice document with
2 x 10 = 20 combinations. -/
theorem C1_count_iterate_agree_witness :
    ∃ l, (∀ g σ, iterate g
        (.plist [.procList [.str "x", .str "y"], .procColor 10]) σ = .ok (l, σ))
      ∧ l.length = 20 :=
  C1_count_iterate_agree (.plist [.procList [.str "x", .str "y"], .procColor 10])
    rfl rfl rfl 20 rfl

lemma exhaustiveTake_ok {α : Type} (l : List α) (n : Nat) (h : n ≤ l.length) :
    exhaustiveTake l n = .ok (l.take n) := by
  induction l generalizing n with
  | nil =>
      cases n with
      | zero => rfl
      | succ n => simp at h
  | cons x xs ih =>
      cases n with
      | zero => rfl
      | succ n =>
          have hn : n ≤ xs.length := by simpa using h
          simp only [exhaustiveTake, ih n hn]
          rfl

lemma exhaustiveTake_err {α : Type} (l : List α) (n : Nat) (h : l.length < n) :
    exhaustiveTake l n = .error "RuntimeError: generator raised StopIteration" := by
  induction l generalizing n with
  | nil =>
      cases n with
      | zero => simp at h
      | succ n => rfl
  | cons x xs ih =>
      cases n with
      | zero => simp at h
      | succ n =>
          have hn : xs.length < n := by simpa using h
          simp only [exhaustiveTake, ih n hn]
          rfl

lemma mapM_ok_length {α β : Type} (f : α → Except Err β) :
    ∀ (l : List α) (l2 : List β), l.mapM f = .ok l2 → l2.length = l.length := by
  intro l
  induction l with
  | nil =>
      intro l2 h
      simp only [List.mapM_nil] at h
      injection h with h
      subst h
      rfl
  | cons x xs ih =>
      intro l2 h
      simp only [List.mapM_cons] at h
      rcases hx : f x with e | y
      all_goals rw [hx] at h
      · cases h
      · rcases hxs : xs.mapM f with e | ys
        all_goals rw [hxs] at h
        · cases h
        · simp only [bind, Except.bind, pure, Except.pure] at h
          injection h with h
          subst h
          simp [ih ys hxs]

/-- C3 (amended): in exhaustive mode generate yields exactly amount items when
amount does not exceed the number of enumerated variations (and each drawn
item passes the deferred-resolution pass); when the variation space is smaller
than amount, generate raises RuntimeError (PEP 479: next() on the exhausted
iterator inside the generator expression becomes RuntimeError) instead of
yielding the remaining items without error. -/
lemma mbind_ok {ε α β : Type} (a : α) (f : α → Except ε β) :
    (Except.ok a : Except ε α) >>= f = f a := rfl

lemma mbind_err {ε α β : Type} (e : ε) (f : α → Except ε β) :
    (Except.error e : Except ε α) >>= f = .error e := rfl

theorem C3_generate_exhaustive_amount (g : RNG) (fuel : Nat) (root : PyObj)
    (amount : Nat) (pls : List PilData) (items : List (PyObj × MetaT)) (σ1 : Nat)
    (hit : iterate g root 0 = .ok (items, σ1)) :
    (∀ finished, amount ≤ items.length →
        (items.take amount).mapM (finishVariation fuel pls) = .ok finished →
        generate g fuel .exhaustive root amount pls = .ok finished
          ∧ finished.length = amount)
    ∧ (items.length < amount →
        generate g fuel .exhaustive root amount pls =
          .error "RuntimeError: generator raised StopIteration") := by
  constructor
  · intro finished hle hfin
    constructor
    · simp only [generate, hit, mbind_ok, exhaustiveTake_ok items amount hle]
      exact hfin
    · have hlen := mapM_ok_length (finishVariation fuel pls) (items.take amount) finished hfin
      rw [hlen, List.length_take]
      omega
  · intro hlt
    simp only [generate, hit, mbind_ok, exhaustiveTake_err items amount hlt, mbind_err]

/-- C3 is false as stated: a document with a single variation consumed in
exhaustive mode with amount 2 does not stop after the one available item —
consuming the generator raises RuntimeError. -/
theorem C3_generate_exhaustive_counterexample :
    count (.num 5) = .ok 1
    ∧ generate gZero 1 .exhaustive (.num 5) 2 [] =
        .error "RuntimeError: generator raised StopIteration" := ⟨rfl, rfl⟩

/-- Witness for the amended C3: amount 1 against a one-variation document
yields exactly one item. -/
theorem C3_generate_exhaustive_amount_witness :
    generate gZero 1 .exhaustive (.num 5) 1 [] = .ok [(.num 5, [])]
    ∧ ([(.num 5, [])] : List (PyObj × MetaT)).length = 1 :=
  (C3_generate_exhaustive_amount gZero 1 (.num 5) 1 [] [(.num 5, [])] 0 rfl).1
    [(.num 5, [])] (by decide) rfl

/-- C4 fails on the code: the Labelled Choice-List handler builds its metadata
with Meta(labels=[option label]) but meta.Meta.__init__ accepts no labels
parameter, so both iterate and sample on a Labelled Choice-List raise
TypeError instead of yielding the option's value with its label recorded. -/
theorem C4_labelled_meta_type_error :
    iterate gZero (.procListLabelled [("S", .num 1)]) 0 =
      .error "TypeError: Meta.__init__ got an unexpected keyword argument labels"
    ∧ sample gZero (.procListLabelled [("S", .num 1)]) 0 =
      .error "TypeError: Meta.__init__ got an unexpected keyword argument labels" :=
  ⟨rfl, rfl⟩

lemma sampleOkList_mem {xs : List PyObj} (h : sampleOkList xs = true)
    {x : PyObj} (hx : x ∈ xs) : sampleOk x = true := by
  induction xs with
  | nil => cases hx
  | cons y ys ih =>
      simp only [sampleOkList, Bool.and_eq_true] at h
      cases hx with
      | head => exact h.1
      | tail _ hx => exact ih h.2 hx

lemma sample_plist (g : RNG) (xs : List PyObj) (σ : Nat) :
    sample g (.plist xs) σ = (sampleList g xs σ).bind
      (fun p => .ok ((.plist (extract_children p.1), extract_meta p.1), p.2)) := rfl

lemma sample_pmap (g : RNG) (keys : List String) (vals : List PyObj) (σ : Nat) :
    sample g (.pmap keys vals) σ = (sampleList g vals σ).bind
      (fun p => .ok ((.pmap keys (extract_children p.1), extract_meta p.1), p.2)) := rfl

lemma sample_aai (g : RNG) (t : AAITag) (keys : List String) (vals : List PyObj) (σ : Nat) :
    sample g (.aai t keys vals) σ = (sampleList g vals σ).bind
      (fun p => .ok ((.aai t keys (extract_children p.1), extract_meta p.1), p.2)) := rfl

lemma sample_repeat (g : RNG) (amount : Nat) (value : PyObj) (σ : Nat) :
    sample g (.procRepeatChoice amount value) σ = (sample g value σ).bind
      (fun p => .ok ((.plist (p.1.1 :: List.replicate (amount - 1) p.1.1), p.1.2), p.2)) := rfl

lemma sampleList_cons (g : RNG) (x : PyObj) (xs : List PyObj) (σ : Nat) :
    sampleList g (x :: xs) σ = (sample g x σ).bind
      (fun p => (sampleList g xs p.2).bind (fun q => .ok (p.1 :: q.1, q.2))) := rfl

lemma sampleList_total (g : RNG) (xs : List PyObj)
    (H : ∀ x ∈ xs, ∀ σ, ∃ p σ2, sample g x σ = .ok (p, σ2)) :
    ∀ σ, ∃ ps σ2, sampleList g xs σ = .ok (ps, σ2) := by
  induction xs with
  | nil => exact fun σ => ⟨[], σ, rfl⟩
  | cons x xs ih =>
      intro σ
      obtain ⟨p, σ1, hp⟩ := H x (List.mem_cons_self x xs) σ
      obtain ⟨ps, σ2, hps⟩ := ih (fun y hy => H y (List.mem_cons_of_mem x hy)) σ1
      exact ⟨p :: ps, σ2, by rw [sampleList_cons, hp, except_bind_ok, hps, except_bind_ok]⟩

lemma sample_total_aux : ∀ (k : Nat) (n : PyObj), sizeOf n ≤ k → sampleOk n = true →
    ∀ g σ, ∃ p σ2, sample g n σ = .ok (p, σ2) := by
  intro k
  induction k with
  | zero =>
      intro n hn
      have := pyObj_sizeOf_pos n
      omega
  | succ k ih =>
      intro n hn hs g σ
      cases n with
      | pnone => simp [sampleOk] at hs
      | range mn mx => simp [sampleOk] at hs
      | placeholder p s lab => simp [sampleOk] at hs
      | procListLabelled options => simp [sampleOk] at hs
      | num q => exact ⟨(.num q, []), σ, rfl⟩
      | str s => exact ⟨(.str s, []), σ, rfl⟩
      | plist xs =>
          have Hmem : ∀ x ∈ xs, ∀ σ, ∃ p σ2, sample g x σ = .ok (p, σ2) := by
            intro x hx σ0
            have h1 := List.sizeOf_lt_of_mem hx
            have h2 : sizeOf (PyObj.plist xs) = 1 + sizeOf xs := by simp
            exact ih x (by omega) (sampleOkList_mem (by simpa [sampleOk] using hs) hx) g σ0
          obtain ⟨ps, σ2, hps⟩ := sampleList_total g xs Hmem σ
          exact ⟨(.plist (extract_children ps), extract_meta ps), σ2,
            by rw [sample_plist, hps, except_bind_ok]⟩
      | pmap keys vals =>
          have Hmem : ∀ x ∈ vals, ∀ σ, ∃ p σ2, sample g x σ = .ok (p, σ2) := by
            intro x hx σ0
            have h1 := List.sizeOf_lt_of_mem hx
            have h2 : sizeOf (PyObj.pmap keys vals) = 1 + sizeOf keys + sizeOf vals := by simp
            exact ih x (by omega) (sampleOkList_mem (by simpa [sampleOk] using hs) hx) g σ0
          obtain ⟨ps, σ2, hps⟩ := sampleList_total g vals Hmem σ
          exact ⟨(.pmap keys (extract_children ps), extract_meta ps), σ2,
            by rw [sample_pmap, hps, except_bind_ok]⟩
      | aai t keys vals =>
          have Hmem : ∀ x ∈ vals, ∀ σ, ∃ p σ2, sample g x σ = .ok (p, σ2) := by
            intro x hx σ0
            have h1 := List.sizeOf_lt_of_mem hx
            have h2 : sizeOf (PyObj.aai t keys vals) = 1 + sizeOf t + sizeOf keys + sizeOf vals := by
              simp
            exact ih x (by omega) (sampleOkList_mem (by simpa [sampleOk] using hs) hx) g σ0
          obtain ⟨ps, σ2, hps⟩ := sampleList_total g vals Hmem σ
          exact ⟨(.aai t keys (extract_children ps), extract_meta ps), σ2,
            by rw [sample_aai, hps, except_bind_ok]⟩
      | procList options =>
          cases options with
          | nil => simp [sampleOk] at hs
          | cons o os => exact ⟨((o :: os).getD (g σ % (o :: os).length) .pnone, []), σ + 1, rfl⟩
      | procColor amount =>
          exact ⟨(to_rgb (COLORS.getD (g σ % COLORS.length) (0, 0, 0)), []), σ + 1, rfl⟩
      | procVector3Scaled base scales labels =>
          simp only [sampleOk, Bool.and_eq_true, Bool.not_eq_true', Option.isNone_iff_eq_none] at hs
          obtain ⟨hne, hnone⟩ := hs
          subst hnone
          cases scales with
          | nil => simp at hne
          | cons s ss =>
              exact ⟨(scale_vector3 (base.getD (1, 1, 1))
                ((s :: ss).getD (g σ % (s :: ss).length) 0), []), σ + 1, rfl⟩
      | procRepeatChoice amount value =>
          have h2 : sizeOf (PyObj.procRepeatChoice amount value) = 1 + sizeOf amount + sizeOf value := by
            simp
          obtain ⟨p, σ2, hp⟩ := ih value (by omega) (by simpa [sampleOk] using hs) g σ
          exact ⟨(.plist (p.1 :: List.replicate (amount - 1) p.1), p.2), σ2,
            by rw [sample_repeat, hp, except_bind_ok]⟩
      | procRestrictCombinations amount item =>
          have h2 : sizeOf (PyObj.procRestrictCombinations amount item) =
              1 + sizeOf amount + sizeOf item := by simp
          obtain ⟨p, σ2, hp⟩ := ih item (by omega) (by simpa [sampleOk] using hs) g σ
          exact ⟨p, σ2, hp⟩
      | procIf v cs ts d ls dl =>
          exact ⟨(.placeholder (.procIf v cs ts d ls dl) .pnone none, []), σ, rfl⟩

lemma sampleTimes_total (g : RNG) (item : PyObj)
    (hs : ∀ σ, ∃ p σ2, sample g item σ = .ok (p, σ2)) :
    ∀ (a σ : Nat), ∃ l σ2, sampleTimes g item a σ = .ok (l, σ2) ∧ l.length = a := by
  intro a
  induction a with
  | zero => exact fun σ => ⟨[], σ, rfl, rfl⟩
  | succ a ih =>
      intro σ
      obtain ⟨p, σ1, hp⟩ := hs σ
      obtain ⟨l, σ2, hl, hlen⟩ := ih σ1
      refine ⟨p :: l, σ2, ?_, by simp [hlen]⟩
      simp only [sampleTimes, hp, mbind_ok, hl]

/-- C5: Restrict-Combinations counts as its declared amount regardless of the
wrapped node's own combinatorial size, and (for a samplable wrapped node) its
iterate draws exactly amount items however large the wrapped space is. -/
theorem C5_restrict_combinations (amount : Nat) (item : PyObj) (hs : sampleOk item = true) :
    count (.procRestrictCombinations amount item) = .ok amount
    ∧ (∀ g σ, ∃ l σ2, iterate g (.procRestrictCombinations amount item) σ = .ok (l, σ2)
        ∧ l.length = amount) := by
  refine ⟨rfl, fun g σ => ?_⟩
  have hst : ∀ σ0, ∃ p σ2, sample g item σ0 = .ok (p, σ2) :=
    fun σ0 => sample_total_aux (sizeOf item) item le_rfl hs g σ0
  obtain ⟨l, σ2, hl, hlen⟩ := sampleTimes_total g item hst amount σ
  exact ⟨l, σ2, hl, hlen⟩

/-- Witness for C5: restricting a 5-option choice list to 2 yields a count of
2 and an iteration of exactly 2 items, although the wrapped space has 5. -/
theorem C5_restrict_combinations_witness :
    sampleOk (.procList [.str "a", .str "b", .str "c", .str "d", .str "e"]) = true
    ∧ count (.procList [.str "a", .str "b", .str "c", .str "d", .str "e"]) = .ok 5
    ∧ count (.procRestrictCombinations 2
        (.procList [.str "a", .str "b", .str "c", .str "d", .str "e"])) = .ok 2
    ∧ (∃ l σ2, iterate gZero (.procRestrictCombinations 2
        (.procList [.str "a", .str "b", .str "c", .str "d", .str "e"])) 0 = .ok (l, σ2)
        ∧ l.length = 2) := by
  obtain ⟨h1, h2⟩ := C5_restrict_combinations 2
    (.procList [.str "a", .str "b", .str "c", .str "d", .str "e"]) (by decide)
  exact ⟨by decide, rfl, h1, h2 gZero 0⟩

lemma duplicateAddrs_nodup (orig ctr amount : Nat) (h : orig < ctr) :
    (duplicateAddrs orig ctr amount).Nodup := by
  unfold duplicateAddrs
  refine List.nodup_cons.mpr ⟨?_, ?_⟩
  · intro hmem
    rcases List.mem_map.mp hmem with ⟨i, _, hi⟩
    omega
  · exact List.Nodup.map (fun a b hab => by omega) (List.nodup_range _)

/-- C6: Repeat-Choice counts as its wrapped node (not multiplied by amount);
each item it iterates is the list of amount copies of one chosen variation
(the chosen object first, then amount - 1 deep copies), every copy equals the
chosen value, and in the allocation model the amount copies occupy pairwise
distinct addresses, so a mutation at one copy's address leaves every other
copy unchanged. -/
theorem C6_repeat_choice (a : Nat) (ha : 1 ≤ a) (v : PyObj) :
    (∀ w, count (.procRepeatChoice a w) = count w)
    ∧ (∀ g σ items σ2, iterate g v σ = .ok (items, σ2) →
        iterate g (.procRepeatChoice a v) σ =
          .ok (items.map (fun p => (.plist (pyDuplicate p.1 a), p.2)), σ2))
    ∧ (pyDuplicate v a).length = a
    ∧ (∀ x ∈ pyDuplicate v a, x = v)
    ∧ (∀ orig ctr, orig < ctr →
        (duplicateAddrs orig ctr a).length = a
        ∧ (duplicateAddrs orig ctr a).Nodup
        ∧ (∀ (heap : Nat → PyObj) (w : PyObj)
            (i j : Fin (duplicateAddrs orig ctr a).length), i ≠ j →
            Function.update heap ((duplicateAddrs orig ctr a).get i) w
              ((duplicateAddrs orig ctr a).get j) =
              heap ((duplicateAddrs orig ctr a).get j))) := by
  refine ⟨fun w => rfl, ?_, ?_, ?_, ?_⟩
  · intro g σ items σ2 hit
    rw [iterate_repeat, hit, except_bind_ok]
    rfl
  · simp only [pyDuplicate, List.length_cons, List.length_replicate]
    omega
  · intro x hx
    rcases List.mem_cons.mp hx with h | h
    · exact h
    · exact List.eq_of_mem_replicate h
  · intro orig ctr hlt
    have hnd := duplicateAddrs_nodup orig ctr a hlt
    refine ⟨?_, hnd, ?_⟩
    · simp only [duplicateAddrs, List.length_cons, List.length_map, List.length_range]
      omega
    · intro heap w i j hij
      have hne : (duplicateAddrs orig ctr a).get j ≠ (duplicateAddrs orig ctr a).get i := by
        intro heq
        exact hij (hnd.get_inj_iff.mp heq.symm)
      exact Function.update_noteq hne w heap

/-- Witness for C6 at amount 2 over a 3-option choice list: the count is 3,
each of the three iterated variations is a 2-element list of equal copies, and
the two addresses of a duplicated pair are distinct. -/
theorem C6_repeat_choice_witness :
    count (.procRepeatChoice 2 (.procList [.str "x", .str "y", .str "z"])) = .ok 3
    ∧ iterate gZero (.procRepeatChoice 2 (.procList [.str "x", .str "y", .str "z"])) 0 =
        .ok ([(.plist [.str "x", .str "x"], []), (.plist [.str "y", .str "y"], []),
              (.plist [.str "z", .str "z"], [])], 0)
    ∧ (pyDuplicate (.procList [.str "x", .str "y", .str "z"]) 2).length = 2
    ∧ (duplicateAddrs 0 1 2).Nodup := by
  obtain ⟨h1, h2, h3, _, h5⟩ :=
    C6_repeat_choice 2 (by decide) (.procList [.str "x", .str "y", .str "z"])
  refine ⟨(h1 (.procList [.str "x", .str "y", .str "z"])).trans rfl, ?_, h3, (h5 0 1 (by decide)).2.1⟩
  exact (h2 gZero 0 [(.str "x", []), (.str "y", []), (.str "z", [])] 0 rfl).trans rfl

lemma matchesAll_cons (v : PyObj) (vs : List PyObj) (c : PyObj) (cs : List PyObj) :
    matchesAll (v :: vs) (c :: cs) = (ConditionResolver_matches v c).bind
      (fun b => if b then matchesAll vs cs else .ok false) := rfl

lemma matchesAll_nil_left (cs : List PyObj) : matchesAll [] cs = .ok true := by
  cases cs <;> rfl

lemma caseLoop_cons (values : List PyObj) (c : PyObj) (rest : List PyObj) (idx : Nat) :
    caseLoop values (c :: rest) idx = (rowMatches values c).bind
      (fun b => if b then .ok (Int.ofNat idx) else caseLoop values rest (idx + 1)) := rfl

lemma caseLoop_first_aux (values : List PyObj) :
    ∀ (cases : List PyObj) (i k : Nat) (hi : i < cases.length),
    (∀ j (hj : j < i), rowMatches values (cases.get ⟨j, lt_trans hj hi⟩) = .ok false) →
    rowMatches values (cases.get ⟨i, hi⟩) = .ok true →
    caseLoop values cases k = .ok (Int.ofNat (k + i)) := by
  intro cases
  induction cases with
  | nil =>
      intro i k hi
      simp at hi
  | cons c rest ih =>
      intro i k hi hprev hmatch
      cases i with
      | zero =>
          have hm : rowMatches values c = .ok true := hmatch
          rw [caseLoop_cons, hm, except_bind_ok, if_pos rfl]
          simp
      | succ i =>
          have h0 : rowMatches values c = .ok false := hprev 0 (Nat.succ_pos i)
          have hi' : i < rest.length := by simpa using hi
          have hprev' : ∀ j (hj : j < i),
              rowMatches values (rest.get ⟨j, lt_trans hj hi'⟩) = .ok false :=
            fun j hj => hprev (j + 1) (by omega)
          have hm : rowMatches values (rest.get ⟨i, hi'⟩) = .ok true := hmatch
          rw [caseLoop_cons, h0, except_bind_ok, if_neg (by simp), ih i (k + 1) hi' hprev' hm]
          have harith : k + 1 + i = k + (i + 1) := by omega
          rw [harith]

/-- C7: condition-case matching semantics: a closed-range case matches a
numeric value exactly when min <= v and v <= max (both bounds inclusive); a
numeric non-range case matches by math.isclose tolerance equality; a string
case matches by exact equality; a two-variable case matches exactly when both
positional sub-values match; and the resolve loop returns the first matching
case in declared order. -/
theorem C7_condition_matching :
    (∀ mn mx q, ConditionResolver_matches (.num q) (.range mn mx) =
        .ok (decide (mn ≤ q) && decide (q ≤ mx)))
    ∧ (∀ a b, ConditionResolver_matches (.num a) (.num b) = .ok (isclose a b))
    ∧ (∀ s t, ConditionResolver_matches (.str s) (.str t) = .ok (s == t))
    ∧ (∀ v1 v2 c1 c2, matchesAll [v1, v2] [c1, c2] = .ok true ↔
        (ConditionResolver_matches v1 c1 = .ok true
          ∧ ConditionResolver_matches v2 c2 = .ok true))
    ∧ (∀ values cases i (hi : i < cases.length),
        (∀ j (hj : j < i), rowMatches values (cases.get ⟨j, lt_trans hj hi⟩) = .ok false) →
        rowMatches values (cases.get ⟨i, hi⟩) = .ok true →
        caseLoop values cases 0 = .ok (Int.ofNat i)) := by
  refine ⟨fun mn mx q => rfl, fun a b => rfl, fun s t => rfl, ?_, ?_⟩
  · intro v1 v2 c1 c2
    rcases h1 : ConditionResolver_matches v1 c1 with e1 | b1
    · simp [matchesAll_cons, h1, except_bind_err]
    · cases b1
      · simp [matchesAll_cons, h1, except_bind_ok]
      · rcases h2 : ConditionResolver_matches v2 c2 with e2 | b2
        · simp [matchesAll_cons, h1, h2, except_bind_ok, except_bind_err]
        · cases b2
          · simp [matchesAll_cons, h1, h2, except_bind_ok]
          · simp [matchesAll_cons, matchesAll_nil_left, h1, h2, except_bind_ok]
  · intro values cases i hi hprev hmatch
    simpa using caseLoop_first_aux values cases i 0 hi hprev hmatch

/-- Witness for C7: the range case over [0, 10] includes 10 and excludes
10.0000001; isclose accepts equal numerals; string equality; the positional
AND of a two-variable case; and with value 7 against cases (5, [0,10], 7) the
range case at index 1 wins even though the case at index 2 also matches. -/
theorem C7_condition_matching_witness :
    ConditionResolver_matches (.num 10) (.range 0 10) = .ok true
    ∧ ConditionResolver_matches (.num (mkRat 100000001 10000000)) (.range 0 10) = .ok false
    ∧ ConditionResolver_matches (.num 5) (.num 5) = .ok true
    ∧ ConditionResolver_matches (.str "small") (.str "small") = .ok true
    ∧ (matchesAll [.num 1, .num 2] [.num 1, .num 2] = .ok true
        ↔ (ConditionResolver_matches (.num 1) (.num 1) = .ok true
            ∧ ConditionResolver_matches (.num 2) (.num 2) = .ok true))
    ∧ caseLoop [.num 7] [.num 5, .range 0 10, .num 7] 0 = .ok 1
    ∧ rowMatches [.num 7] (.num 7) = .ok true := by
  obtain ⟨h1, h2, h3, h4, h5⟩ := C7_condition_matching
  refine ⟨(h1 0 10 10).trans rfl, (h1 0 10 (mkRat 100000001 10000000)).trans rfl,
    (h2 5 5).trans rfl, (h3 "small" "small").trans rfl,
    h4 (.num 1) (.num 2) (.num 1) (.num 2), ?_, rfl⟩
  refine h5 [.num 7] [.num 5, .range 0 10, .num 7] 1 (by decide) ?_ rfl
  intro j hj
  cases j with
  | zero => rfl
  | succ j => omega

/-- C8 is false as stated: constructing a ProcIf whose labels list is present
but empty while cases has length 1 succeeds — the truthiness guard
(if self.labels and ...) skips the length check for an empty labels list even
though it differs in length from cases. -/
theorem C8_procif_init_counterexample :
    ProcIf_init (.str "x") [.num 1] [.str "small"] .pnone (some []) none =
      .ok (.procIf (.str "x") [.num 1] [.str "small"] .pnone (some []) none)
    ∧ ([] : List String).length ≠ ([PyObj.num 1] : List PyObj).length := by
  exact ⟨rfl, by decide⟩

/-- C8 (amended): ProcIf construction succeeds exactly when cases and then
have equal length and the labels list, when present and NON-EMPTY, has the
same length as cases; a mismatch in either raises LengthMismatch at
construction time (an empty labels list is falsy in Python and escapes the
check). -/
theorem C8_procif_init_lengths (value : PyObj) (cases thens : List PyObj)
    (default : PyObj) (labels : Option (List String)) (defaultLabel : Option String) :
    (ProcIf_init value cases thens default labels defaultLabel).isOk =
      ((thens.length == cases.length) &&
        (match labels with
         | none => true
         | some ls => ls.isEmpty || ls.length == cases.length)) := by
  unfold ProcIf_init
  by_cases h1 : thens.length = cases.length
  · cases labels with
    | none => simp [h1, Except.isOk, Except.toBool]
    | some ls =>
        by_cases h2 : ls.isEmpty
        · simp [h1, h2, Except.isOk, Except.toBool]
        · by_cases h3 : ls.length = cases.length
          · simp [h1, h2, h3, Except.isOk, Except.toBool]
          · simp [h1, h2, h3, Except.isOk, Except.toBool, beq_iff_eq]
  · cases labels <;> simp [h1, Except.isOk, Except.toBool, beq_iff_eq]

/-- C9 is false as stated: an Item carrying id foo is found when searched
directly, but as soon as it sits inside a Choice-List's options or a
Repeat-Choice's wrapped value, find item by id returns nothing — the search
does not descend into combinatorial tags' children. -/
theorem C9_find_item_counterexample :
    findItem "foo" (.aai .item ["id", "size"] [.str "foo", .num 5]) =
      .ok (some (.aai .item ["id", "size"] [.str "foo", .num 5]))
    ∧ findItem "foo" (.procList [.aai .item ["id", "size"] [.str "foo", .num 5]]) = .ok none
    ∧ findItem "foo"
        (.procRepeatChoice 2 (.aai .item ["id", "size"] [.str "foo", .num 5])) = .ok none := by
  exact ⟨rfl, rfl, rfl⟩

/-- C9 (amended): ConditionResolver.__find_item never descends into the
children of a custom tag that is not an AnimalAI tag — every !Proc tag and the
!R range yields None immediately, so an identified node nested inside such a
tag's un-expanded sub-structure cannot be found. -/
theorem C9_find_item_no_descent (itemId : String) (n : PyObj)
    (h : isNonAAICustomTag n = true) :
    findItem itemId n = .ok none := by
  cases n <;> simp [isNonAAICustomTag] at h <;> rfl

/-- Witness for the amended C9: an identified Item inside a Choice-List is not
found. -/
theorem C9_find_item_no_descent_witness :
    findItem "bar" (.procList [.aai .item ["id"] [.str "bar"]]) = .ok none :=
  C9_find_item_no_descent "bar" (.procList [.aai .item ["id"] [.str "bar"]]) rfl

/-- C10: a MutablePlaceholder reports is_filled exactly when its stored value
is not None; a placeholder whose conditional resolved to the value None is
therefore still reported unfilled after fill; and both indexing and
serialising a placeholder whose stored value is None raise ValueError. -/
theorem C10_mutable_placeholder (fuel : Nat) (pif root : PyObj) (k : PathKey) :
    (∀ v : PyObj, MutablePlaceholder_is_filled v = true ↔ v ≠ .pnone)
    ∧ (∀ v lab, MutablePlaceholder_fill fuel pif root = .ok (v, lab) → v = .pnone →
        MutablePlaceholder_is_filled v = false)
    ∧ MutablePlaceholder_getitem .pnone k =
        .error "ValueError: MutablePlaceholder has not been filled yet"
    ∧ MutablePlaceholder_represent .pnone =
        .error "ValueError: MutablePlaceholder has not been filled yet" := by
  refine ⟨?_, ?_, rfl, rfl⟩
  · intro v
    cases v <;> simp [MutablePlaceholder_is_filled]
  · intro v lab _ hv
    subst hv
    rfl

/-- Witness for C10: a ProcIf whose matching then-branch is null resolves to
None, and the placeholder that stored it still reports unfilled, cannot be
indexed and cannot be serialised. -/
theorem C10_mutable_placeholder_witness :
    MutablePlaceholder_fill 3
      (.procIf (.str "foo.size") [.num 5] [.pnone] .pnone none none)
      (.aai .item ["id", "size"] [.str "foo", .num 5]) = .ok (.pnone, none)
    ∧ MutablePlaceholder_is_filled .pnone = false
    ∧ MutablePlaceholder_getitem .pnone (.field "x") =
        .error "ValueError: MutablePlaceholder has not been filled yet"
    ∧ MutablePlaceholder_represent .pnone =
        .error "ValueError: MutablePlaceholder has not been filled yet" := by
  obtain ⟨h1, h2, h3, h4⟩ := C10_mutable_placeholder 3
    (.procIf (.str "foo.size") [.num 5] [.pnone] .pnone none none)
    (.aai .item ["id", "size"] [.str "foo", .num 5]) (.field "x")
  exact ⟨rfl, h2 .pnone none rfl rfl, h3, h4⟩
